import Mathlib

/-!
Verification development for the closure-phase bias estimation engine of the
repository (module `mintpy/closure_phase_bias.py`).

The Python module works on numpy float32/complex64 arrays.  We embed the
numeric values as exact rationals extended with the three IEEE special values
`+inf`, `-inf` and `nan` (type `NpVal`), with the arithmetic and comparison
semantics numpy uses (nan propagates; x/0 is ±inf for x ≠ 0 and nan for 0/0;
comparisons against nan are false).  Rounding of float arithmetic is idealised
away, as is usual for such embeddings; no claim below depends on rounding.

Transcendental kernels (`np.cos`, `np.sin`, `np.angle`/`atan2`, `np.sqrt`) and
`np.linalg.pinv` are calls into the platform math library / LAPACK; they are
modelled as an explicit environment (`MathEnv`), exactly like the file-reading
collaborators (`StackEnv`, `CumEnv`, `BiasEnv`) that stand for
`readfile.read`, the `ifgramStack` object and the on-disk closure-phase
artifacts.  `np.pi` is the float64 constant, an exact rational (`NP_PI`).

Python exceptions are embedded as `Except Err`; the constructors record which
`raise` site (or which builtin error: NameError, ZeroDivisionError,
ValueError, IndexError) fired.
-/

/-- Idealised numpy floating point value: an exact rational or one of the
IEEE special values. -/
inductive NpVal where
  | val (q : ℚ)
  | posInf
  | negInf
  | nan
deriving DecidableEq, Repr

/-- numpy addition on `NpVal` (IEEE semantics, exact rationals). -/
def npAdd : NpVal → NpVal → NpVal
  | NpVal.nan, _ => NpVal.nan
  | _, NpVal.nan => NpVal.nan
  | NpVal.posInf, NpVal.negInf => NpVal.nan
  | NpVal.negInf, NpVal.posInf => NpVal.nan
  | NpVal.posInf, _ => NpVal.posInf
  | _, NpVal.posInf => NpVal.posInf
  | NpVal.negInf, _ => NpVal.negInf
  | _, NpVal.negInf => NpVal.negInf
  | NpVal.val a, NpVal.val b => NpVal.val (a + b)

/-- numpy negation on `NpVal`. -/
def npNeg : NpVal → NpVal
  | NpVal.val a => NpVal.val (-a)
  | NpVal.posInf => NpVal.negInf
  | NpVal.negInf => NpVal.posInf
  | NpVal.nan => NpVal.nan

/-- numpy subtraction on `NpVal`. -/
def npSub (a b : NpVal) : NpVal := npAdd a (npNeg b)

/-- numpy multiplication on `NpVal` (inf · 0 = nan). -/
def npMul : NpVal → NpVal → NpVal
  | NpVal.nan, _ => NpVal.nan
  | _, NpVal.nan => NpVal.nan
  | NpVal.val a, NpVal.val b => NpVal.val (a * b)
  | NpVal.val a, NpVal.posInf =>
      if 0 < a then NpVal.posInf else if a < 0 then NpVal.negInf else NpVal.nan
  | NpVal.val a, NpVal.negInf =>
      if 0 < a then NpVal.negInf else if a < 0 then NpVal.posInf else NpVal.nan
  | NpVal.posInf, NpVal.val b =>
      if 0 < b then NpVal.posInf else if b < 0 then NpVal.negInf else NpVal.nan
  | NpVal.negInf, NpVal.val b =>
      if 0 < b then NpVal.negInf else if b < 0 then NpVal.posInf else NpVal.nan
  | NpVal.posInf, NpVal.posInf => NpVal.posInf
  | NpVal.posInf, NpVal.negInf => NpVal.negInf
  | NpVal.negInf, NpVal.posInf => NpVal.negInf
  | NpVal.negInf, NpVal.negInf => NpVal.posInf

/-- numpy elementwise division on `NpVal` arrays: x/0 is ±inf for x ≠ 0,
0/0 and inf/inf are nan (numpy emits a RuntimeWarning, not an exception). -/
def npDiv : NpVal → NpVal → NpVal
  | NpVal.nan, _ => NpVal.nan
  | _, NpVal.nan => NpVal.nan
  | NpVal.val a, NpVal.val b =>
      if b = 0 then
        (if a = 0 then NpVal.nan else if 0 < a then NpVal.posInf else NpVal.negInf)
      else NpVal.val (a / b)
  | NpVal.val _, NpVal.posInf => NpVal.val 0
  | NpVal.val _, NpVal.negInf => NpVal.val 0
  | NpVal.posInf, NpVal.val b => if b < 0 then NpVal.negInf else NpVal.posInf
  | NpVal.negInf, NpVal.val b => if b < 0 then NpVal.posInf else NpVal.negInf
  | NpVal.posInf, _ => NpVal.nan
  | NpVal.negInf, _ => NpVal.nan

/-- numpy strict less-than on `NpVal` (false on any nan operand). -/
def npLt : NpVal → NpVal → Bool
  | NpVal.nan, _ => false
  | _, NpVal.nan => false
  | NpVal.val a, NpVal.val b => decide (a < b)
  | NpVal.negInf, NpVal.negInf => false
  | NpVal.negInf, _ => true
  | _, NpVal.negInf => false
  | NpVal.posInf, _ => false
  | _, NpVal.posInf => true

/-- numpy strict greater-than on `NpVal`. -/
def npGt (a b : NpVal) : Bool := npLt b a

/-- numpy absolute value on `NpVal`. -/
def npAbs : NpVal → NpVal
  | NpVal.val a => NpVal.val |a|
  | NpVal.posInf => NpVal.posInf
  | NpVal.negInf => NpVal.posInf
  | NpVal.nan => NpVal.nan

/-- numpy `x != 0` on `NpVal` (true for nan and the infinities). -/
def npNe0 : NpVal → Bool
  | NpVal.val a => decide (a ≠ 0)
  | _ => true

/-- numpy `np.isnan` on `NpVal`. -/
def npIsNan : NpVal → Bool
  | NpVal.nan => true
  | _ => false

/-- The two masked in-place assignments `w[w>1]=1` then `w[w<0]=0` from the
source, as one value-level operation. -/
def np_clamp01 (v : NpVal) : NpVal :=
  let v1 := if npGt v (NpVal.val 1) then NpVal.val 1 else v
  if npLt v1 (NpVal.val 0) then NpVal.val 0 else v1

/-- Membership of an `NpVal` in the closed interval [0,1] (false for the
special values). -/
def npIn01 : NpVal → Bool
  | NpVal.val q => decide (0 ≤ q) && decide (q ≤ 1)
  | _ => false

/-- One complex64 value, componentwise. -/
structure CpxVal where
  re : NpVal
  im : NpVal
deriving DecidableEq, Repr

/-- Complex addition, componentwise. -/
def cpxAdd (a b : CpxVal) : CpxVal := CpxVal.mk (npAdd a.re b.re) (npAdd a.im b.im)

/-- Division of a complex64 value by a (nonnegative integer) real scalar,
componentwise, as numpy does for `cum_cp /= num_cp`. -/
def cpxDivNat (a : CpxVal) (k : Nat) : CpxVal :=
  CpxVal.mk (npDiv a.re (NpVal.val k)) (npDiv a.im (NpVal.val k))

/-- Which Python exception a code path raised. -/
inductive Err where
  | nameError
  | noTriplets
  | networkError
  | zeroDivisionError
  | valueError
  | indexError
deriving DecidableEq, Repr

/-- The error carried by an `Except` value, if any. -/
def errOf {α : Type} : Except Err α → Option Err
  | Except.error e => some e
  | Except.ok _ => none

/-- Whether an `Except` value is a success. -/
def okBool {α : Type} : Except Err α → Bool
  | Except.ok _ => true
  | Except.error _ => false

/-- The float64 value of `np.pi`, as an exact rational
(3.141592653589793115997963468544185161590576171875). -/
def NP_PI : ℚ := 884279719003555 / 281474976710656

/-- External transcendental / linear-algebra kernels used by the module
(libm `cos`, `sin`, `atan2`, `sqrt` and LAPACK `np.linalg.pinv`), modelled as
an environment.  `pinv` takes the two matrix dimensions and the matrix. -/
structure MathEnv where
  cos : NpVal → NpVal
  sin : NpVal → NpVal
  atan2 : NpVal → NpVal → NpVal
  sqrt : NpVal → NpVal
  pinv : Nat → Nat → (Nat → Nat → NpVal) → (Nat → Nat → NpVal)

/-- `np.abs` of a complex value: `sqrt(re² + im²)` through the math kernel. -/
def cAbs (m : MathEnv) (z : CpxVal) : NpVal :=
  m.sqrt (npAdd (npMul z.re z.re) (npMul z.im z.im))

/-- A bounding box `(x0, y0, x1, y1)` over the raster grid. -/
structure Box where
  x0 : Nat
  y0 : Nat
  x1 : Nat
  y1 : Nat
deriving DecidableEq, Repr

/-- Box width `box[2] - box[0]`. -/
def Box.wid (b : Box) : Nat := b.x1 - b.x0

/-- Box length `box[3] - box[1]`. -/
def Box.len (b : Box) : Nat := b.y1 - b.y0

/-- A 2-D float array over local (row, column) coordinates. -/
def Grid2 : Type := Nat → Nat → NpVal

/-- A 2-D complex array over local (row, column) coordinates. -/
def CpxGrid : Type := Nat → Nat → CpxVal

/-- The `ifgramStack` object together with the phase file contents consumed by
the closure-phase functions: number of (kept) acquisition dates, the closure
index per connection level (`get_closure_phase_index`; each row lists the
plus-interferogram indices followed by the minus index), the unwrapped phase
cube read by `readfile.read` (interferogram, global y, global x), the number
of interferograms `phase.shape[0]`, and the per-interferogram reference-pixel
phase. -/
structure StackEnv where
  numDate : Nat
  cpIdx : Nat → List (List Nat)
  phase : Nat → Nat → Nat → NpVal
  numIfgram : Nat
  refPhase : Nat → NpVal

/-- The in-place reference-phase subtraction loop
`for i in range(phase.shape[0]): mask = phase[i] != 0; phase[i][mask] -= ref_phase[i]`
applied pointwise (slices beyond `phase.shape[0]` do not exist and are left
untouched). -/
def ref_phase_stack (stack : StackEnv) : Nat → Nat → Nat → NpVal :=
  fun i y x =>
    let p := stack.phase i y x
    if i < stack.numIfgram then
      (if npNe0 p then npSub p (stack.refPhase i) else p)
    else p

/-- `np.sum` of one 2-D slice restricted to a box (row-major accumulation
starting from 0, as numpy reduces). -/
def box_sum (f : Nat → Nat → NpVal) (b : Box) : NpVal :=
  List.foldl
    (fun acc y =>
      List.foldl (fun acc2 x => npAdd acc2 (f (b.y0 + y) (b.x0 + x))) acc
        (List.range b.wid))
    (NpVal.val 0) (List.range b.len)

/-- `np.sum(phase[idx_plus])` from lines 129/178: `phase[idx_plus]` stacks the
listed slices and `np.sum` without an `axis` argument reduces over ALL axes —
interferogram, row and column — producing a single scalar. -/
def plus_sum (ph : Nat → Nat → Nat → NpVal) (idxs : List Nat) (b : Box) : NpVal :=
  List.foldl (fun acc j => npAdd acc (box_sum (ph j) b)) (NpVal.val 0) idxs

/-- Embeds `seq_closure_phase(stack_obj, box, conn_level)` (lines 89-135).
After the closure index is fetched, line 111 evaluates the guard
`if num_cp < num_date-n:` — the name `n` is bound neither in the function nor
at module level, so the lookup raises `NameError` before any closure phase is
computed; the function can never reach the read/compute section. -/
def seq_closure_phase (stack : StackEnv) (box : Box) (conn_level : Nat) :
    Except Err (Nat → Grid2) :=
  let num_date := stack.numDate
  let cp_idx := stack.cpIdx conn_level
  let num_cp := cp_idx.length
  have _ := num_date
  have _ := num_cp
  Except.error Err.nameError

/-- Embeds `sum_seq_closure_phase(stack_obj, box, conn_level, normalize)`
(lines 138-188).  The guard is `if num_cp < 1` (raising for an empty triplet
list only); the per-triplet loop then accumulates
`cum_cp += exp(1j * cp0_w)` where `cp0_w = np.sum(phase[idx_plus]) -
phase[idx_minor]` — see `plus_sum` for the all-axes reduction of the first
term. -/
def sum_seq_closure_phase (m : MathEnv) (stack : StackEnv) (box : Box)
    (conn_level : Nat) (normalize : Bool) : Except Err (CpxGrid × Nat) :=
  let cp_idx := stack.cpIdx conn_level
  let num_cp := cp_idx.length
  if num_cp < 1 then Except.error Err.noTriplets
  else
    let ph := ref_phase_stack stack
    let cum : CpxGrid :=
      List.foldl
        (fun acc row =>
          let s := plus_sum ph row.dropLast box
          fun r c =>
            let cp0 := npSub s (ph (row.getLastD 0) (box.y0 + r) (box.x0 + c))
            cpxAdd (acc r c) (CpxVal.mk (m.cos cp0) (m.sin cp0)))
        (fun _ _ => CpxVal.mk (NpVal.val 0) (NpVal.val 0)) cp_idx
    let cum2 : CpxGrid :=
      if normalize then fun r c => cpxDivNat (cum r c) num_cp else cum
    Except.ok (cum2, num_cp)

/-- The masked slice assignment `avg[box[1]:box[3], box[0]:box[2]] = cum`
used to assemble per-box results into the full raster. -/
def write_box (avg : CpxGrid) (b : Box) (cum : CpxGrid) : CpxGrid :=
  fun y x =>
    if b.y0 ≤ y ∧ y < b.y1 ∧ b.x0 ≤ x ∧ x < b.x1 then cum (y - b.y0) (x - b.x0)
    else avg y x

/-- `np.abs` applied to a boolean array is the elementwise identity; this is
what line 253 `mask[np.abs(np.abs(avg_closure_phase) < threshold_amp)] = 1`
computes before boolean-mask indexing. -/
def np_abs_bool (b : Bool) : Bool := b

/-- The mask construction of lines 236-253 for one pixel of the average
closure-phase array: start from 1, set 0 where
`|np.angle(avg)| > pi/sqrt(3*num_cp)*num_sigma`, then set 1 where
`np.abs(np.abs(avg) < threshold_amp)`. -/
def mask_pixel (m : MathEnv) (num_cp : Nat) (num_sigma threshold_amp : ℚ)
    (z : CpxVal) : Bool :=
  let threshold_pha :=
    npMul (npDiv (NpVal.val NP_PI) (m.sqrt (NpVal.val (3 * num_cp)))) (NpVal.val num_sigma)
  let pha_exceeds := npGt (npAbs (m.atan2 z.im z.re)) threshold_pha
  let amp_below := npLt (cAbs m z) (NpVal.val threshold_amp)
  if np_abs_bool amp_below then true else if pha_exceeds then false else true

/-- Result of `calc_closure_phase_mask`: the boolean mask, the assembled
average complex closure phase and the triplet count used for the phase
threshold. -/
structure MaskResult where
  mask : Nat → Nat → Bool
  avg : CpxGrid
  num_cp : Nat

/-- The block loop of `calc_closure_phase_mask` (lines 219-253): each box is
processed by `sum_seq_closure_phase(..., normalize=True)` and written at its
offsets; `num_cp` keeps the value assigned in the LAST loop iteration; with an
empty box list the later use of `num_cp` on line 246 is a NameError. -/
def calc_mask_go (m : MathEnv) (stack : StackEnv) (nl : Nat)
    (num_sigma threshold_amp : ℚ) :
    List Box → CpxGrid → Option Nat → Except Err MaskResult
  | [], _, none => Except.error Err.nameError
  | [], avg, some ncp =>
      Except.ok
        (MaskResult.mk (fun y x => mask_pixel m ncp num_sigma threshold_amp (avg y x))
          avg ncp)
  | b :: rest, avg, _ =>
      match sum_seq_closure_phase m stack b nl true with
      | Except.error e => Except.error e
      | Except.ok (cum, ncp) =>
          calc_mask_go m stack nl num_sigma threshold_amp rest (write_box avg b cum)
            (some ncp)

/-- Embeds `calc_closure_phase_mask(stack_file, nl, num_sigma, threshold_amp,
outdir, max_memory)` (lines 193-272) over a given box partition: the average
closure phase starts as a zero array and the mask is built from the assembled
average. -/
def calc_closure_phase_mask (m : MathEnv) (stack : StackEnv) (box_list : List Box)
    (nl : Nat) (num_sigma threshold_amp : ℚ) : Except Err MaskResult :=
  calc_mask_go m stack nl num_sigma threshold_amp box_list
    (fun _ _ => CpxVal.mk (NpVal.val 0) (NpVal.val 0)) none

/-- The mask of a `calc_closure_phase_mask` run at one pixel, if it succeeded. -/
def maskAt (e : Except Err MaskResult) (y x : Nat) : Option Bool :=
  match e with
  | Except.ok r => some (r.mask y x)
  | Except.error _ => none

/-- The assembled average closure phase at one pixel, if the run succeeded. -/
def avgAt (e : Except Err MaskResult) (y x : Nat) : Option CpxVal :=
  match e with
  | Except.ok r => some (r.avg y x)
  | Except.error _ => none

/-- The triplet count a `calc_closure_phase_mask` run used, if it succeeded. -/
def ncpAt (e : Except Err MaskResult) : Option Nat :=
  match e with
  | Except.ok r => some r.num_cp
  | Except.error _ => none

/-- The on-disk cumulative sequential closure-phase artifacts
(`conn{n}_seqcumclosurephase.h5`) read by `seq2cum_closure_phase`: the depth
of the time-series axis and the stored values indexed by (connection level,
date index, global y, global x). -/
structure CumEnv where
  numDates : Nat
  cum : Nat → Nat → Nat → Nat → NpVal

/-- Embeds `seq2cum_closure_phase(conn, outdir, box)` (lines 442-457): a boxed
read of the cumulative sequential closure-phase file, in local coordinates
(date, row, column). -/
def seq2cum_closure_phase (cenv : CumEnv) (conn : Nat) (box : Box) :
    Nat → Nat → Nat → NpVal :=
  fun d r c => cenv.cum conn d (box.y0 + r) (box.x0 + c)

/-- Embeds `estimate_ratioX(tbase, n, nl, wvl, box, outdir, mask)`
(lines 460-498).  Python raises IndexError for `[-1]` on an empty first axis
and for `tbase[-1]` on an empty list, and ZeroDivisionError for the scalar
float division `coef = -4*np.pi/wvl` when `wvl == 0`; the checks appear in
source order.  For `n == 1` the ratio is an array of ones; otherwise it is
`1 - cum_n/cum_1` clamped by the two masked assignments; the bias velocity is
formed from the clamped ratio, and the `mask` option then overwrites
low-velocity pixels with nan. -/
def estimate_ratioX (cenv : CumEnv) (tbase : List ℚ) (n nl : Nat) (wvl : ℚ)
    (box : Box) (mask : Bool) : Except Err (Grid2 × Grid2) :=
  if cenv.numDates = 0 then Except.error Err.indexError
  else if wvl = 0 then Except.error Err.zeroDivisionError
  else if tbase = [] then Except.error Err.indexError
  else
    let lastd := cenv.numDates - 1
    let cum1 : Grid2 := fun r c => seq2cum_closure_phase cenv nl box lastd r c
    let coef : ℚ := (-4) * NP_PI / wvl
    let delta_T : ℚ := tbase.getLastD 0 - tbase.headD 0
    let vel1 : Grid2 := fun r c =>
      npDiv (npDiv (cum1 r c) (NpVal.val coef)) (NpVal.val delta_T)
    if n = 1 then
      let wratio : Grid2 := fun _ _ => NpVal.val 1
      let wratio_velocity : Grid2 := fun r c => npMul (wratio r c) (vel1 r c)
      let wratio2 : Grid2 :=
        if mask then
          fun r c =>
            if npLt (npAbs (vel1 r c)) (NpVal.val (1 / 10)) then NpVal.nan
            else wratio r c
        else wratio
      Except.ok (wratio2, wratio_velocity)
    else
      let cumn : Grid2 := fun r c => seq2cum_closure_phase cenv n box lastd r c
      let wratio : Grid2 := fun r c =>
        np_clamp01 (npSub (NpVal.val 1) (npDiv (cumn r c) (cum1 r c)))
      let wratio_velocity : Grid2 := fun r c => npMul (wratio r c) (vel1 r c)
      let wratio2 : Grid2 :=
        if mask then
          fun r c =>
            if npLt (npAbs (vel1 r c)) (NpVal.val (1 / 10)) then NpVal.nan
            else wratio r c
        else wratio
      Except.ok (wratio2, wratio_velocity)

/-- The ratio component of an `estimate_ratioX` result at one pixel. -/
def ratioAt (e : Except Err (Grid2 × Grid2)) (r c : Nat) : Option NpVal :=
  match e with
  | Except.ok p => some (p.1 r c)
  | Except.error _ => none

/-- Whether the ratio an `estimate_ratioX` run returned at one pixel is in
[0,1] or nan (vacuously true for a failed run). -/
def ratio_ok_at (e : Except Err (Grid2 × Grid2)) (r c : Nat) : Bool :=
  match ratioAt e r c with
  | some q => npIn01 q || npIsNan q
  | none => true

/-- Embeds `estimate_ratioX_all(bw, nl, outdir, box)` (lines 501-523).  The
`(bw+1)`-deep output array starts as zeros, slices 2..bw receive
`cum_n/cum_1`, and the transform `wratio = 1-wratio` with the two clamping
assignments is applied to EVERY slice, padding slices 0 and 1 included.  The
first-axis extent `bw+1` is enforced at the indexing site
(`np_fancy_index`).  `ratio_all_fun` is the array a successful run returns,
as a function of (slice, row, column). -/
def ratio_all_fun (cenv : CumEnv) (bw nl : Nat) (box : Box) :
    Nat → Nat → Nat → NpVal :=
  fun n r c =>
    np_clamp01 (npSub (NpVal.val 1)
      (if 2 ≤ n ∧ n ≤ bw then
        npDiv (seq2cum_closure_phase cenv n box (cenv.numDates - 1) r c)
          (seq2cum_closure_phase cenv nl box (cenv.numDates - 1) r c)
      else NpVal.val 0))

/-- The `estimate_ratioX_all` entry point: IndexError on an empty time-series
axis, otherwise the `ratio_all_fun` array. -/
def estimate_ratioX_all (cenv : CumEnv) (bw nl : Nat) (box : Box) :
    Except Err (Nat → Nat → Nat → NpVal) :=
  if cenv.numDates = 0 then Except.error Err.indexError
  else Except.ok (ratio_all_fun cenv bw nl box)

/-- One slice entry of an `estimate_ratioX_all` result, if the run
succeeded. -/
def ratioAllAt (e : Except Err (Nat → Nat → Nat → NpVal)) (n r c : Nat) :
    Option NpVal :=
  match e with
  | Except.ok w => some (w n r c)
  | Except.error _ => none

/-- Python `list.index(v)`: index of the first occurrence, ValueError when the
value is absent. -/
def py_list_index : List Int → Int → Except Err Nat
  | [], _ => Except.error Err.valueError
  | a :: rest, v =>
      if a = v then Except.ok 0
      else
        match py_list_index rest v with
        | Except.ok i => Except.ok (i + 1)
        | Except.error e => Except.error e

/-- numpy basic indexing of the first axis of extent `d1` with a Python int:
negative indices wrap once, anything outside `[-d1, d1)` raises IndexError. -/
def np_fancy_index (d1 : Nat) (i : Int) : Except Err Nat :=
  if 0 ≤ i ∧ i < (d1 : Int) then Except.ok i.toNat
  else if -(d1 : Int) ≤ i ∧ i < 0 then Except.ok (i + d1).toNat
  else Except.error Err.indexError

/-- The connection level `A[i].index(1) - A[i].index(-1)` of one incidence
row, when both entries exist. -/
def connOf (row : List Int) : Option Int :=
  match py_list_index row (-1), py_list_index row 1 with
  | Except.ok i1, Except.ok i2 => some ((i2 : Int) - (i1 : Int))
  | _, _ => none

/-- A well-formed incidence row: `-1` and `1` both present with the `-1`
first, so the connection level is positive. -/
def row_well_formed (row : List Int) : Bool :=
  match connOf row with
  | some c => decide (0 < c)
  | none => false

/-- Whether an incidence row's connection level exceeds the bandwidth. -/
def row_over_bw (bw : Nat) (row : List Int) : Bool :=
  match connOf row with
  | some c => decide ((bw : Int) < c)
  | none => false

/-- One iteration of the loop of `get_design_matrix_W` (lines 545-555): fetch
row `A[i]`, locate the `-1` and `1` entries, derive the connection level, and
look the level up in `wratioall`.  When `conn > bw` the source only prints an
advisory (no raise); the lookup `wratioall[conn,:,:]` that follows then
raises IndexError because the first axis has extent `bw+1`.  The looked-up
slice is flattened with `reshape(-1)` into a per-pixel column. -/
def gdw_step (wall : Nat → Nat → Nat → NpVal) (bw : Nat) (box : Box)
    (A : List (List Int)) (i : Nat) : Except Err (Nat → NpVal) :=
  match A.get? i with
  | none => Except.error Err.indexError
  | some row =>
      match py_list_index row (-1) with
      | Except.error e => Except.error e
      | Except.ok idx1 =>
          match py_list_index row 1 with
          | Except.error e => Except.error e
          | Except.ok idx2 =>
              let conn : Int := (idx2 : Int) - (idx1 : Int)
              match np_fancy_index (bw + 1) conn with
              | Except.error e => Except.error e
              | Except.ok k =>
                  Except.ok (fun pix => wall k (pix / box.wid) (pix % box.wid))

/-- The `for i in range(M)` loop of `get_design_matrix_W`, building the list
of per-interferogram columns `W[:, i]`; the first exception aborts the
whole loop. -/
def gdw_go (wall : Nat → Nat → Nat → NpVal) (bw : Nat) (box : Box)
    (A : List (List Int)) : List Nat → Except Err (List (Nat → NpVal))
  | [] => Except.ok []
  | i :: rest =>
      match gdw_step wall bw box A i with
      | Except.error e => Except.error e
      | Except.ok col =>
          match gdw_go wall bw box A rest with
          | Except.error e => Except.error e
          | Except.ok cols => Except.ok (col :: cols)

/-- Embeds `get_design_matrix_W(M, A, bw, box, tbase, nl, outdir)`
(lines 526-557).  `W` is represented as the list of its columns
(`W[:, i] = cols[i]`, a function of the flattened pixel index). -/
def get_design_matrix_W (M : Nat) (A : List (List Int)) (bw : Nat) (box : Box)
    (tbase : List ℚ) (nl : Nat) (cenv : CumEnv) :
    Except Err (List (Nat → NpVal)) :=
  have _ := tbase
  match estimate_ratioX_all cenv bw nl box with
  | Except.error e => Except.error e
  | Except.ok wall => gdw_go wall bw box A (List.range M)

/-- Entry `W[pix, i]` of a `get_design_matrix_W` result, if it succeeded and
the column exists. -/
def WcolAt (e : Except Err (List (Nat → NpVal))) (i pix : Nat) : Option NpVal :=
  match e with
  | Except.ok cols => cols[i]?.map (fun col => col pix)
  | Except.error _ => none

/-- Tail of `np.argmin`: scan keeping the first strict minimum. -/
def argmin_go : List ℚ → ℚ → Nat → Nat → Nat
  | [], _, best, _ => best
  | a :: rest, bestv, best, k =>
      if a < bestv then argmin_go rest a k (k + 1)
      else argmin_go rest bestv best (k + 1)

/-- `np.argmin` on a 1-D array: index of the first minimum; ValueError on an
empty array. -/
def np_argmin : List ℚ → Except Err Nat
  | [] => Except.error Err.valueError
  | a :: rest => Except.ok (argmin_go rest a 0 1)

/-- Embeds `average_connN_igrams(date_ordinal, conn)` (lines 581-597):
`date_ordinal[0:conn]` and `date_ordinal[-conn:]` (for `conn ≥ 1` the latter
is `drop (len - conn)`), the sum of pairwise differences, and the final
integer division — a ZeroDivisionError when `len(date_ordinal) == conn`.
Element access assumes `conn ≤ len(date_ordinal)` (the callers pass
`conn ≤ bw < num_date`). -/
def average_connN_igrams (date_ordinal : List Int) (conn : Nat) : Except Err ℚ :=
  let firstn := date_ordinal.take conn
  let lastn := date_ordinal.drop (date_ordinal.length - conn)
  let avgtime : Int :=
    List.foldl (fun acc i => acc + (lastn.getD i 0 - firstn.getD i 0)) 0
      (List.range conn)
  let numigram : Int := (date_ordinal.length : Int) - (conn : Int)
  if numigram = 0 then Except.error Err.zeroDivisionError
  else Except.ok ((avgtime : ℚ) / (numigram : ℚ))

/-- Embeds `average_temporal_span(date_ordinal, bw)` (lines 560-578): the
same pairwise-difference sums accumulated over levels 1..bw, divided by the
accumulated interferogram count (ZeroDivisionError when that count is 0). -/
def average_temporal_span (date_ordinal : List Int) (bw : Nat) : Except Err ℚ :=
  let step := fun (acc : Int × Int) (level : Nat) =>
    let firstn := date_ordinal.take level
    let lastn := date_ordinal.drop (date_ordinal.length - level)
    let s : Int :=
      List.foldl (fun a i => a + (lastn.getD i 0 - firstn.getD i 0)) 0
        (List.range level)
    (acc.1 + s, acc.2 + ((date_ordinal.length : Int) - (level : Int)))
  let p := List.foldl step (0, 0) (List.map (fun k => k + 1) (List.range bw))
  if p.2 = 0 then Except.error Err.zeroDivisionError
  else Except.ok ((p.1 : ℚ) / (p.2 : ℚ))

/-- Sequential evaluation of a Python list comprehension whose element
expression may raise: the first exception aborts the whole list. -/
def except_mapM {α β : Type} (f : α → Except Err β) : List α → Except Err (List β)
  | [] => Except.ok []
  | a :: rest =>
      match f a with
      | Except.error e => Except.error e
      | Except.ok b =>
          match except_mapM f rest with
          | Except.error e => Except.error e
          | Except.ok bs => Except.ok (b :: bs)

/-- Embeds `estimate_tsbias_approx(nl, bw, tbase, date_ordinal, wvl, box,
outdir)` (lines 600-636), in source order: the per-level average time spans,
the representative level `p`, `coef = -4*np.pi/wvl` (scalar Python division,
ZeroDivisionError at `wvl == 0`), the two `estimate_ratioX` calls with the
mask option off, the nan substitutions, `ratio1 = wratio_p/(1-wratio_m1)`,
the two scaled cumulative closure-phase series, and the final fallback that
replaces nan entries of the fine series with the coarse one.  The function
contains no interferogram-count validation of any kind. -/
def estimate_tsbias_approx (cenv : CumEnv) (nl bw : Nat) (tbase : List ℚ)
    (date_ordinal : List Int) (wvl : ℚ) (box : Box) :
    Except Err (Nat → Nat → Nat → NpVal) :=
  match except_mapM (average_connN_igrams date_ordinal)
      (List.map (fun k => k + 1) (List.range bw)) with
  | Except.error e => Except.error e
  | Except.ok deltat_n =>
      match average_temporal_span date_ordinal bw with
      | Except.error e => Except.error e
      | Except.ok avgtimespan =>
          match np_argmin (deltat_n.map (fun d => |d - avgtimespan|)) with
          | Except.error e => Except.error e
          | Except.ok pidx =>
              let p := pidx + 1
              if wvl = 0 then Except.error Err.zeroDivisionError
              else
                let coef : ℚ := (-4) * NP_PI / wvl
                let m1 : Nat := 2
                let m2 : Nat := nl
                match estimate_ratioX cenv tbase p nl wvl box false with
                | Except.error e => Except.error e
                | Except.ok wp =>
                    match estimate_ratioX cenv tbase m1 nl wvl box false with
                    | Except.error e => Except.error e
                    | Except.ok wm =>
                        let wratio_p : Grid2 := fun r c =>
                          if npIsNan (wp.1 r c) then NpVal.val 0 else wp.1 r c
                        let wratio_m1a : Grid2 := fun r c =>
                          if npIsNan (wm.1 r c) then NpVal.val 0 else wm.1 r c
                        let wratio_m1 : Grid2 := fun r c =>
                          if npLt (npAbs (npSub (wratio_m1a r c) (NpVal.val 1)))
                              (NpVal.val (1 / 10)) then NpVal.nan
                          else wratio_m1a r c
                        let ratio1 : Grid2 := fun r c =>
                          npDiv (wratio_p r c) (npSub (NpVal.val 1) (wratio_m1 r c))
                        let biasts1 := seq2cum_closure_phase cenv m1 box
                        let biasts2 := seq2cum_closure_phase cenv m2 box
                        let b1s : Nat → Nat → Nat → NpVal := fun i r c =>
                          npMul (npDiv (biasts1 i r c) (NpVal.val coef)) (ratio1 r c)
                        let b2s : Nat → Nat → Nat → NpVal := fun i r c =>
                          npMul (npDiv (biasts2 i r c) (NpVal.val coef)) (wratio_p r c)
                        Except.ok
                          (fun i r c =>
                            if npIsNan (b1s i r c) then b2s i r c else b1s i r c)

/-- Insertion step of a stable ascending sort. -/
def insert_sorted (a : Nat) : List Nat → List Nat
  | [] => [a]
  | b :: rest => if a ≤ b then a :: b :: rest else b :: insert_sorted a rest

/-- Python `sorted(...)` on the deduplicated date tokens (insertion sort). -/
def pysorted : List Nat → List Nat
  | [] => []
  | a :: rest => insert_sorted a (pysorted rest)

/-- The stack-derived inputs of `estimate_bias`: the retained `date12` pairs
(date tokens modelled as their 8-digit numeral values — lexicographic order on
the equal-length date strings is their numeric order), the datetime
collaborator mapping a date token to a time in days, and the design matrices
`A`, `B` from `get_design_matrix4timeseries`. -/
structure BiasEnv where
  date12 : List (Nat × Nat)
  toTime : Nat → ℚ
  A : List (List Int)
  B : Nat → Nat → NpVal

/-- `date_list = sorted(set(date1s + date2s))` of `estimate_bias` (lines
762-764). -/
def bias_date_list (benv : BiasEnv) : List Nat :=
  pysorted ((benv.date12.map Prod.fst ++ benv.date12.map Prod.snd).dedup)

/-- `np.sum`-style accumulation of `f 0 + ... + f (len-1)` starting from 0. -/
def np_sum_range (len : Nat) (f : Nat → NpVal) : NpVal :=
  List.foldl (fun acc k => npAdd acc (f k)) (NpVal.val 0) (List.range len)

/-- Embeds `estimate_bias(stack_file, nl, bw, wvl, box, outdir)` (lines
736-816), in source order: `coef` (ZeroDivisionError at `wvl == 0`), the `A`,
`B = B[:, :-1]` matrices, the rough (level `nl`) and fine (level 2) cumulative
series, the date list (IndexError on `date_list[0]` when empty), `tbase`,
the bias-velocity mask, the in-place rescaling of the fine series (the
rescaling factor reads the original last slice, as the in-place loop does
when the file depth equals the date count), the interferogram-count guard
`num_ifgram != int(bw*(num_date*2-bw-1)/2)` raised BEFORE the per-pixel
inversion, the `W` matrix, and the per-pixel loop
(`Wr·A`, mask-selected phase vector, `pinv(B)` through LAPACK, rate-to-
displacement cumulative sum, first date pinned to 0, scaling by `1/coef`). -/
def estimate_bias (m : MathEnv) (cenv : CumEnv) (benv : BiasEnv) (nl bw : Nat)
    (wvl : ℚ) (box : Box) :
    Except Err ((Nat → Nat → Nat → NpVal) × Box) :=
  if wvl = 0 then Except.error Err.zeroDivisionError
  else
    let coef : ℚ := (-4) * NP_PI / wvl
    let box_width := box.wid
    let A := benv.A
    let B : Nat → Nat → NpVal := benv.B
    let biasts_bw1_rough := seq2cum_closure_phase cenv nl box
    let mfine : Nat := 2
    let biasts_bw1_fine0 := seq2cum_closure_phase cenv mfine box
    match bias_date_list benv with
    | [] => Except.error Err.indexError
    | d0 :: tl =>
        let date_list := d0 :: tl
        let num_date := date_list.length
        let tbase : List ℚ :=
          date_list.map (fun d => (benv.toTime d - benv.toTime d0) / (1461 / 4))
        let tbase_diff : Nat → ℚ := fun i => tbase.getD (i + 1) 0 - tbase.getD i 0
        let delta_T : ℚ := tbase.getLastD 0 - tbase.headD 0
        if cenv.numDates = 0 then Except.error Err.indexError
        else
          let lastd := cenv.numDates - 1
          let velocity_m : Grid2 := fun r c =>
            npDiv (npDiv (biasts_bw1_fine0 lastd r c) (NpVal.val coef))
              (NpVal.val delta_T)
          let maskg : Nat → Nat → Nat := fun r c =>
            if npLt (npAbs (velocity_m r c)) (NpVal.val (1 / 10)) then 0 else 1
          let biasts_fine : Nat → Nat → Nat → NpVal := fun i r c =>
            npMul
              (npDiv (biasts_bw1_rough lastd r c) (biasts_bw1_fine0 lastd r c))
              (biasts_bw1_fine0 i r c)
          let num_ifgram := A.length
          if (num_ifgram : Int) ≠
              Int.tdiv ((bw : Int) * (2 * (num_date : Int) - (bw : Int) - 1)) 2 then
            Except.error Err.networkError
          else
            match get_design_matrix_W num_ifgram A bw box tbase nl cenv with
            | Except.error e => Except.error e
            | Except.ok wcols =>
                let a : Nat → Nat → NpVal := fun j k =>
                  NpVal.val (((A.getD j []).getD k 0 : Int) : ℚ)
                let rough_flat : Nat → Nat → NpVal := fun i pix =>
                  biasts_bw1_rough i (pix / box_width) (pix % box_width)
                let fine_flat : Nat → Nat → NpVal := fun i pix =>
                  biasts_fine i (pix / box_width) (pix % box_width)
                let mask_flat : Nat → Nat := fun pix =>
                  maskg (pix / box_width) (pix % box_width)
                let b_inv := m.pinv num_ifgram (num_date - 1) B
                let wrow : Nat → Nat → NpVal := fun pix j =>
                  (wcols.getD j (fun _ => NpVal.val 0)) pix
                let dphi : Nat → Nat → NpVal := fun pix k =>
                  if mask_flat pix = 0 then rough_flat k pix else fine_flat k pix
                let dphi_bias : Nat → Nat → NpVal := fun pix j =>
                  np_sum_range num_date
                    (fun k => npMul (npMul (wrow pix j) (a j k)) (dphi pix k))
                let biasvel : Nat → Nat → NpVal := fun pix t =>
                  np_sum_range num_ifgram (fun j => npMul (b_inv t j) (dphi_bias pix j))
                let cums : Nat → Nat → NpVal := fun pix t =>
                  np_sum_range (t + 1)
                    (fun u => npMul (biasvel pix u) (NpVal.val (tbase_diff u)))
                let out : Nat → Nat → Nat → NpVal := fun d r c =>
                  if d = 0 then NpVal.val 0
                  else npDiv (cums (r * box_width + c) (d - 1)) (NpVal.val coef)
                Except.ok (out, box)

/-- A simple math environment for runs where the transcendental values are
irrelevant (cos is constantly 1, everything else constantly 0). -/
def mEnvA : MathEnv :=
  MathEnv.mk (fun _ => NpVal.val 1) (fun _ => NpVal.val 0) (fun _ _ => NpVal.val 0)
    (fun _ => NpVal.val 0) (fun _ _ _ => fun _ _ => NpVal.val 0)

/-- A 3-date stack whose connection-1 closure index has a single triplet (two
are expected when no interferograms are missing) and whose phases are
identically zero. -/
def stackA : StackEnv :=
  StackEnv.mk 3 (fun conn => if conn = 1 then [[0, 1]] else [])
    (fun _ _ _ => NpVal.val 0) 2 (fun _ => NpVal.val 0)

/-- A 4-date stack with one connection-2 triplet and zero phases. -/
def stackB : StackEnv :=
  StackEnv.mk 4 (fun conn => if conn = 2 then [[0, 1, 2]] else [])
    (fun _ _ _ => NpVal.val 0) 3 (fun _ => NpVal.val 0)

/-- The 1×1 bounding box at the origin. -/
def boxOne : Box := Box.mk 0 0 1 1

/-- Math environment for the block-divergence run; the cos kernel is
instantiated as the identity so distinct loop phases stay distinct. -/
def mEnvC6 : MathEnv :=
  MathEnv.mk (fun v => v) (fun _ => NpVal.val 0) (fun _ _ => NpVal.val 0)
    (fun _ => NpVal.val 0) (fun _ _ _ => fun _ _ => NpVal.val 0)

/-- A stack over a 1×2 raster: interferogram 0 has phase 1 at x=0 and 2 at
x=1, interferogram 1 is zero; the connection-1 index holds one triplet. -/
def stackC6 : StackEnv :=
  StackEnv.mk 3 (fun conn => if conn = 1 then [[0, 1]] else [])
    (fun i _ x =>
      if i = 0 then (if x = 0 then NpVal.val 1 else NpVal.val 2) else NpVal.val 0)
    2 (fun _ => NpVal.val 0)

/-- The full 1×2 raster as a single box. -/
def boxFull6 : Box := Box.mk 0 0 2 1

/-- The right 1×1 tile of the 1×2 raster (the left tile is `boxOne`). -/
def boxR6 : Box := Box.mk 1 0 2 1

/-- Math environment for the threshold-boundary run, honest at the few points
it is evaluated on: sqrt 36 = 6, sqrt(9/100) = 3/10, atan2(0, -3/10) = pi,
and a loop phase of 7 whose complex exponential is (-3/10, 0). -/
def mEnvC8 : MathEnv :=
  MathEnv.mk
    (fun v => if v = NpVal.val 7 then NpVal.val (-3 / 10) else NpVal.val 0)
    (fun _ => NpVal.val 0)
    (fun im re =>
      if im = NpVal.val 0 ∧ re = NpVal.val (-3 / 10) then NpVal.val NP_PI
      else NpVal.val 0)
    (fun v =>
      if v = NpVal.val 36 then NpVal.val 6
      else if v = NpVal.val (9 / 100) then NpVal.val (3 / 10) else NpVal.nan)
    (fun _ _ _ => fun _ _ => NpVal.val 0)

/-- A stack whose connection-1 index lists the same triplet 12 times; the
interferogram-0 phase is 7 and interferogram 1 is zero, so every loop phase
is 7. -/
def stackC8 : StackEnv :=
  StackEnv.mk 14 (fun conn => if conn = 1 then List.replicate 12 [0, 1] else [])
    (fun i _ _ => if i = 0 then NpVal.val 7 else NpVal.val 0) 2
    (fun _ => NpVal.val 0)

/-- Cumulative closure-phase files that are identically zero, one date deep. -/
def cenvZero : CumEnv := CumEnv.mk 1 (fun _ _ _ _ => NpVal.val 0)

/-- Cumulative closure-phase files that are identically one, three dates
deep. -/
def cenvOnes : CumEnv := CumEnv.mk 3 (fun _ _ _ _ => NpVal.val 1)

/-- A bias environment with two dates but five interferogram rows — more than
the `bw*(2N-bw-1)/2 = 1` interferograms of a full bandwidth-1 network on two
dates. -/
def benvC3 : BiasEnv :=
  BiasEnv.mk [(1, 2)] (fun d => (d : ℚ))
    [[-1, 1], [-1, 1], [-1, 1], [-1, 1], [-1, 1]] (fun _ _ => NpVal.val 0)

/-- A one-row incidence matrix whose row has connection level 2. -/
def rowsC9 : List (List Int) := [[-1, 0, 1]]

/-- A one-row incidence matrix whose row has connection level 1. -/
def rowsC10 : List (List Int) := [[-1, 1]]

/-- `npLt` on two finite values is the rational comparison. -/
theorem npLt_val (a b : ℚ) : npLt (NpVal.val a) (NpVal.val b) = decide (a < b) := rfl

/-- `npGt` on two finite values is the flipped rational comparison. -/
theorem npGt_val (a b : ℚ) : npGt (NpVal.val a) (NpVal.val b) = decide (b < a) := rfl

/-- The clamping pair `w[w>1]=1; w[w<0]=0` leaves every value either inside
[0,1] or equal to nan (nan compares false against both bounds and survives). -/
theorem np_clamp01_ok (v : NpVal) :
    (npIn01 (np_clamp01 v) || npIsNan (np_clamp01 v)) = true := by
  cases v with
  | val q =>
      by_cases h1 : (1 : ℚ) < q
      · have hv : np_clamp01 (NpVal.val q) = NpVal.val 1 := by
          norm_num [np_clamp01, npGt, npLt_val, h1]
        rw [hv]; decide
      · by_cases h2 : q < 0
        · have hv : np_clamp01 (NpVal.val q) = NpVal.val 0 := by
            norm_num [np_clamp01, npGt, npLt_val, h1, h2]
          rw [hv]; decide
        · have hv : np_clamp01 (NpVal.val q) = NpVal.val q := by
            norm_num [np_clamp01, npGt, npLt_val, h1, h2]
          rw [hv]
          simp only [npIn01, npIsNan, Bool.or_eq_true, Bool.and_eq_true,
            decide_eq_true_eq]
          left
          exact And.intro (by linarith) (by linarith)
  | posInf => decide
  | negInf => decide
  | nan => decide

/-- A successful `calc_closure_phase_mask` run builds its mask pointwise with
`mask_pixel` from the assembled average and the last triplet count. -/
theorem calc_mask_spec (m : MathEnv) (stack : StackEnv) (nl : Nat) (ns ta : ℚ) :
    ∀ (boxes : List Box) (avg : CpxGrid) (acc : Option Nat) (res : MaskResult),
      calc_mask_go m stack nl ns ta boxes avg acc = Except.ok res →
      ∀ y x, res.mask y x = mask_pixel m res.num_cp ns ta (res.avg y x) := by
  intro boxes
  induction boxes with
  | nil =>
      intro avg acc res h y x
      cases acc with
      | none => simp [calc_mask_go] at h
      | some ncp =>
          simp only [calc_mask_go] at h
          cases h
          rfl
  | cons b rest ih =>
      intro avg acc res h y x
      unfold calc_mask_go at h
      cases hs : sum_seq_closure_phase m stack b nl true with
      | error e => rw [hs] at h; cases h
      | ok p => rw [hs] at h; exact ih _ _ res h y x

/-- A pixel whose computed amplitude compares strictly below the amplitude
threshold is unmasked by `mask_pixel`, whatever the phase test says. -/
theorem mask_pixel_amp_below (m : MathEnv) (ncp : Nat) (ns ta : ℚ) (z : CpxVal)
    (h : npLt (cAbs m z) (NpVal.val ta) = true) :
    mask_pixel m ncp ns ta z = true := by
  unfold mask_pixel np_abs_bool
  rw [h]
  rfl

/-- A pixel whose computed amplitude is exactly the amplitude threshold is NOT
rescued by the (strict) amplitude test: its mask is the negation of the phase
test. -/
theorem mask_pixel_amp_eq (m : MathEnv) (ncp : Nat) (ns ta : ℚ) (z : CpxVal)
    (h : cAbs m z = NpVal.val ta) :
    mask_pixel m ncp ns ta z =
      !(npGt (npAbs (m.atan2 z.im z.re))
        (npMul (npDiv (NpVal.val NP_PI) (m.sqrt (NpVal.val (3 * ncp)))) (NpVal.val ns))) := by
  unfold mask_pixel np_abs_bool
  rw [h]
  have hlt : npLt (NpVal.val ta) (NpVal.val ta) = false := by
    simp [npLt]
  rw [hlt]
  cases hp : npGt (npAbs (m.atan2 z.im z.re))
      (npMul (npDiv (NpVal.val NP_PI) (m.sqrt (NpVal.val (3 * ncp)))) (NpVal.val ns)) with
  | true => simp [hp]
  | false => simp [hp]

/-- Inserting into a sorted list never yields the empty list. -/
theorem insert_sorted_ne_nil (a : Nat) (l : List Nat) : insert_sorted a l ≠ [] := by
  cases l with
  | nil => simp [insert_sorted]
  | cons b rest =>
      unfold insert_sorted
      by_cases h : a ≤ b
      · simp [h]
      · simp [h]

/-- Sorting a nonempty list yields a nonempty list. -/
theorem pysorted_ne_nil (a : Nat) (l : List Nat) : pysorted (a :: l) ≠ [] := by
  unfold pysorted
  exact insert_sorted_ne_nil a (pysorted l)

/-- A nonempty `date12` list yields a nonempty sorted date list. -/
theorem bias_date_list_ne_nil (benv : BiasEnv) (h : benv.date12 ≠ []) :
    bias_date_list benv ≠ [] := by
  unfold bias_date_list
  cases hd : (benv.date12.map Prod.fst ++ benv.date12.map Prod.snd).dedup with
  | nil =>
      rw [List.dedup_eq_nil] at hd
      cases hb : benv.date12 with
      | nil => exact absurd hb h
      | cons p rest => rw [hb] at hd; simp at hd
  | cons a rest => exact pysorted_ne_nil a rest

/-- Inverting a successful `connOf`: both index lookups succeeded and the
connection level is their difference. -/
theorem connOf_inv (row : List Int) (c : Int) (h : connOf row = some c) :
    ∃ i1 i2, py_list_index row (-1) = Except.ok i1 ∧
      py_list_index row 1 = Except.ok i2 ∧ c = (i2 : Int) - (i1 : Int) := by
  unfold connOf at h
  cases h1 : py_list_index row (-1) with
  | error e => rw [h1] at h; simp at h
  | ok i1 =>
      cases h2 : py_list_index row 1 with
      | error e => rw [h1, h2] at h; simp at h
      | ok i2 =>
          rw [h1, h2] at h
          simp at h
          exact ⟨i1, i2, rfl, rfl, h.symm⟩

/-- Inverting `row_well_formed`. -/
theorem row_wf_inv (row : List Int) (h : row_well_formed row = true) :
    ∃ c, connOf row = some c ∧ 0 < c := by
  unfold row_well_formed at h
  cases hc : connOf row with
  | none => rw [hc] at h; simp at h
  | some c =>
      rw [hc] at h
      simp at h
      exact ⟨c, rfl, h⟩

/-- Inverting `row_over_bw`. -/
theorem row_over_inv (bw : Nat) (row : List Int) (h : row_over_bw bw row = true) :
    ∃ c, connOf row = some c ∧ (bw : Int) < c := by
  unfold row_over_bw at h
  cases hc : connOf row with
  | none => rw [hc] at h; simp at h
  | some c =>
      rw [hc] at h
      simp at h
      exact ⟨c, rfl, h⟩

/-- `estimate_ratioX` can raise IndexError or ZeroDivisionError, never the
network-mismatch exception. -/
theorem ratioX_no_network (cenv : CumEnv) (tbase : List ℚ) (n nl : Nat)
    (wvl : ℚ) (box : Box) (mask : Bool) :
    errOf (estimate_ratioX cenv tbase n nl wvl box mask) ≠ some Err.networkError := by
  unfold estimate_ratioX
  by_cases h0 : cenv.numDates = 0
  · simp [h0, errOf]
  · by_cases hw : wvl = 0
    · simp [h0, hw, errOf]
    · by_cases ht : tbase = []
      · simp [h0, hw, ht, errOf]
      · by_cases hn : n = 1
        · simp [h0, hw, ht, hn, errOf]
        · simp [h0, hw, ht, hn, errOf]

/-- `average_connN_igrams` can only raise ZeroDivisionError. -/
theorem avg_connN_no_network (date_ordinal : List Int) (conn : Nat) :
    errOf (average_connN_igrams date_ordinal conn) ≠ some Err.networkError := by
  unfold average_connN_igrams
  by_cases h : ((date_ordinal.length : Int) - (conn : Int)) = 0
  · simp [h, errOf]
  · simp [h, errOf]

/-- `average_temporal_span` can only raise ZeroDivisionError. -/
theorem avg_span_no_network (date_ordinal : List Int) (bw : Nat) :
    errOf (average_temporal_span date_ordinal bw) ≠ some Err.networkError := by
  simp only [average_temporal_span]
  split
  · simp [errOf]
  · simp [errOf]

/-- `np_argmin` can only raise ValueError. -/
theorem np_argmin_no_network (l : List ℚ) :
    errOf (np_argmin l) ≠ some Err.networkError := by
  cases l with
  | nil => simp [np_argmin, errOf]
  | cons a rest => simp [np_argmin, errOf]

/-- A sequentially evaluated comprehension whose element expression never
raises the network-mismatch exception cannot raise it either. -/
theorem except_mapM_no_network {α β : Type} (f : α → Except Err β)
    (hf : ∀ a, errOf (f a) ≠ some Err.networkError) :
    ∀ l, errOf (except_mapM f l) ≠ some Err.networkError := by
  intro l
  induction l with
  | nil => simp [except_mapM, errOf]
  | cons a rest ih =>
      unfold except_mapM
      cases hfa : f a with
      | error e =>
          have := hf a
          rw [hfa] at this
          simpa [errOf] using this
      | ok b =>
          cases hrest : except_mapM f rest with
          | error e =>
              rw [hrest] at ih
              simpa [errOf] using ih
          | ok bs => simp [errOf]

/-- If every indexed row is well formed but some indexed row's connection
level exceeds the bandwidth, the column loop of `get_design_matrix_W` aborts
with the IndexError of the out-of-bounds `wratioall[conn]` lookup. -/
theorem gdw_go_offender (wall : Nat → Nat → Nat → NpVal) (bw : Nat) (box : Box)
    (A : List (List Int)) :
    ∀ idxs : List Nat,
      (∀ i ∈ idxs, ∃ row, A.get? i = some row ∧ row_well_formed row = true) →
      (∃ i ∈ idxs, ∃ row, A.get? i = some row ∧ row_over_bw bw row = true) →
      gdw_go wall bw box A idxs = Except.error Err.indexError := by
  intro idxs
  induction idxs with
  | nil => intro _ hex; simp at hex
  | cons i0 rest ih =>
      intro hwf hex
      obtain ⟨row, hrow, hwfrow⟩ := hwf i0 (by simp)
      obtain ⟨c, hc, hcpos⟩ := row_wf_inv row hwfrow
      obtain ⟨i1, i2, h1, h2, hceq⟩ := connOf_inv row c hc
      unfold gdw_go
      by_cases hover : row_over_bw bw row = true
      · obtain ⟨c2, hc2, hc2gt⟩ := row_over_inv bw row hover
        rw [hc] at hc2
        injection hc2 with hc2
        subst hc2
        have hfi : np_fancy_index (bw + 1) ((i2 : Int) - (i1 : Int)) =
            Except.error Err.indexError := by
          unfold np_fancy_index
          rw [if_neg (by omega), if_neg (by omega)]
        have hstep : gdw_step wall bw box A i0 = Except.error Err.indexError := by
          unfold gdw_step
          simp only [hrow, h1, h2, hfi]
        rw [hstep]
      · have hcle : c ≤ (bw : Int) := by
          by_contra hgt
          apply hover
          unfold row_over_bw
          rw [hc]
          simp
          omega
        have hfi : np_fancy_index (bw + 1) ((i2 : Int) - (i1 : Int)) =
            Except.ok (Int.toNat ((i2 : Int) - (i1 : Int))) := by
          unfold np_fancy_index
          rw [if_pos (by omega)]
        have hstep : gdw_step wall bw box A i0 =
            Except.ok (fun pix =>
              wall (Int.toNat ((i2 : Int) - (i1 : Int))) (pix / box.wid) (pix % box.wid)) := by
          unfold gdw_step
          simp only [hrow, h1, h2, hfi]
        rw [hstep]
        have hrest : ∃ i ∈ rest, ∃ row2, A.get? i = some row2 ∧ row_over_bw bw row2 = true := by
          obtain ⟨j, hj, row2, hrow2, hover2⟩ := hex
          rcases List.mem_cons.mp hj with hj0 | hjr
          · subst hj0
            rw [hrow] at hrow2
            injection hrow2 with hrow2
            subst hrow2
            exact absurd hover2 hover
          · exact ⟨j, hjr, row2, hrow2, hover2⟩
        rw [ih (fun i hi => hwf i (List.mem_cons_of_mem _ hi)) hrest]

/-- A successful column loop of `get_design_matrix_W` produced one column per
processed row, each the successful `gdw_step` of its row index. -/
theorem gdw_go_ok_spec (wall : Nat → Nat → Nat → NpVal) (bw : Nat) (box : Box)
    (A : List (List Int)) :
    ∀ (idxs : List Nat) (cols : List (Nat → NpVal)),
      gdw_go wall bw box A idxs = Except.ok cols →
      cols.length = idxs.length ∧
      ∀ (j i : Nat), idxs[j]? = some i →
        ∃ col, cols[j]? = some col ∧ gdw_step wall bw box A i = Except.ok col := by
  intro idxs
  induction idxs with
  | nil =>
      intro cols h
      simp only [gdw_go] at h
      cases h
      constructor
      · rfl
      · intro j i hj
        simp at hj
  | cons i0 rest ih =>
      intro cols h
      unfold gdw_go at h
      cases hs : gdw_step wall bw box A i0 with
      | error e => rw [hs] at h; cases h
      | ok col0 =>
          rw [hs] at h
          cases hr : gdw_go wall bw box A rest with
          | error e => rw [hr] at h; cases h
          | ok cols0 =>
              rw [hr] at h
              cases h
              obtain ⟨hlen, hspec⟩ := ih cols0 hr
              constructor
              · simp [hlen]
              · intro j i hj
                cases j with
                | zero =>
                    simp at hj
                    subst hj
                    exact ⟨col0, by simp, hs⟩
                | succ j2 =>
                    simp at hj
                    obtain ⟨col, hcol, hstep⟩ := hspec j2 i hj
                    exact ⟨col, by simpa using hcol, hstep⟩

/-- The padding slices 0 and 1 of `ratio_all_fun` are identically 1: the
zero initialisation passes through `1 - 0` and the clamp. -/
theorem ratio_all_fun_pad (cenv : CumEnv) (bw nl : Nat) (box : Box)
    (n r c : Nat) (hn : n < 2) :
    ratio_all_fun cenv bw nl box n r c = NpVal.val 1 := by
  unfold ratio_all_fun
  rw [if_neg (by omega)]
  norm_num [np_clamp01, npSub, npNeg, npAdd, npGt, npLt]

/-- C2: the triplet-count guard of `seq_closure_phase` evaluates
`num_cp < num_date - n` with the name `n` unbound, so every call fails with a
NameError before any closure phase is computed — whatever the stack contents,
bounding box or connection level, and independently of whether any
interferograms are missing. -/
theorem c2_seq_guard_nameerror (stack : StackEnv) (box : Box) (conn_level : Nat) :
    errOf (seq_closure_phase stack box conn_level) = some Err.nameError := rfl

/-- C5 (code bug): the wrapped sequential closure phases of
`seq_closure_phase` are documented to lie in (-pi, pi]; evaluated on a
concrete 4-date stack with one connection-2 triplet, the call instead aborts
with the NameError of its guard (unbound `n`), so no wrapped value is ever
produced and the claimed range property never materialises. -/
theorem c5_seq_no_wrapped_output :
    errOf (seq_closure_phase stackB boxOne 2) = some Err.nameError := rfl

/-- C1 (amended): the cumulative operation `sum_seq_closure_phase` raises its
error only when the triplet list is empty (`num_cp < 1`) and otherwise
computes the sum even when fewer than N-n triplets were found, while the
wrapped operation `seq_closure_phase` aborts every call with the NameError of
its unbound guard variable instead of the missing-interferograms message. -/
theorem c1_amended :
    (∀ (m : MathEnv) (stack : StackEnv) (box : Box) (conn_level : Nat) (normalize : Bool),
        (stack.cpIdx conn_level).length = 0 →
        errOf (sum_seq_closure_phase m stack box conn_level normalize) =
          some Err.noTriplets) ∧
    (∀ (m : MathEnv) (stack : StackEnv) (box : Box) (conn_level : Nat) (normalize : Bool),
        0 < (stack.cpIdx conn_level).length →
        okBool (sum_seq_closure_phase m stack box conn_level normalize) = true) ∧
    (∀ (stack : StackEnv) (box : Box) (conn_level : Nat),
        errOf (seq_closure_phase stack box conn_level) = some Err.nameError) := by
  refine ⟨?_, ?_, ?_⟩
  · intro m stack box conn_level normalize h
    simp only [sum_seq_closure_phase]
    rw [if_pos (by omega)]
    rfl
  · intro m stack box conn_level normalize h
    simp only [sum_seq_closure_phase]
    rw [if_neg (by omega)]
    rfl
  · intro stack box conn_level
    rfl

/-- C1 (counterexample): a 3-date stack with a single connection-1 triplet
where two are expected: the cumulative operation succeeds instead of failing
with a missing-interferograms error, and the wrapped operation fails with a
NameError rather than that error. -/
theorem c1_counterexample :
    errOf (seq_closure_phase stackA boxOne 1) = some Err.nameError ∧
    okBool (sum_seq_closure_phase mEnvA stackA boxOne 1 false) = true ∧
    (stackA.cpIdx 1).length < stackA.numDate - 1 := by
  refine ⟨rfl, by decide, by decide⟩

/-- C1 (witness): the amended statement instantiated on the concrete stack:
the empty level-2 index raises, the singleton level-1 index succeeds, and the
wrapped operation name-errors. -/
theorem c1_witness :
    ((stackA.cpIdx 2).length = 0 ∧
      errOf (sum_seq_closure_phase mEnvA stackA boxOne 2 false) = some Err.noTriplets) ∧
    (0 < (stackA.cpIdx 1).length ∧
      okBool (sum_seq_closure_phase mEnvA stackA boxOne 1 false) = true) ∧
    errOf (seq_closure_phase stackA boxOne 1) = some Err.nameError :=
  ⟨⟨by decide, c1_amended.1 mEnvA stackA boxOne 2 false (by decide)⟩,
    ⟨by decide, c1_amended.2.1 mEnvA stackA boxOne 1 false (by decide)⟩,
    c1_amended.2.2 stackA boxOne 1⟩

/-- C6 (code bug): processing a 1×2 raster as a single block versus as two
1×1 tiles changes the assembled average complex closure phase at pixel
(0, 0) — `np.sum(phase[idx_plus])` reduces over every axis of the block, so
each pixel's closure phase depends on the whole block's data and the output
is not partition-invariant. -/
theorem c6_block_divergence :
    avgAt (calc_closure_phase_mask mEnvC6 stackC6 [boxFull6] 1 3 (3 / 10)) 0 0 =
      some (CpxVal.mk (NpVal.val 3) (NpVal.val 0)) ∧
    avgAt (calc_closure_phase_mask mEnvC6 stackC6 [boxOne, boxR6] 1 3 (3 / 10)) 0 0 =
      some (CpxVal.mk (NpVal.val 1) (NpVal.val 0)) := by
  constructor
  · norm_num [avgAt, calc_closure_phase_mask, calc_mask_go, sum_seq_closure_phase,
      ref_phase_stack, box_sum, plus_sum, cpxAdd, cpxDivNat, npAdd, npNeg, npSub,
      npDiv, npNe0, write_box, Box.wid, Box.len, stackC6, mEnvC6, boxFull6, boxOne,
      boxR6, List.range_succ]
  · norm_num [avgAt, calc_closure_phase_mask, calc_mask_go, sum_seq_closure_phase,
      ref_phase_stack, box_sum, plus_sum, cpxAdd, cpxDivNat, npAdd, npNeg, npSub,
      npDiv, npNe0, write_box, Box.wid, Box.len, stackC6, mEnvC6, boxFull6, boxOne,
      boxR6, List.range_succ]

/-- C7: in a successful `calc_closure_phase_mask` run, every pixel whose
average closure-phase amplitude compares strictly below the amplitude
threshold ends with mask = true (unmasked), regardless of its average
closure-phase angle — `np.abs` applied to the boolean comparison array is the
identity, so line 253 acts as the plain strict amplitude test. -/
theorem c7_amp_below_unmasked (m : MathEnv) (stack : StackEnv) (box_list : List Box)
    (nl : Nat) (ns ta : ℚ) (y x : Nat) (z : CpxVal)
    (hz : avgAt (calc_closure_phase_mask m stack box_list nl ns ta) y x = some z)
    (hamp : npLt (cAbs m z) (NpVal.val ta) = true) :
    maskAt (calc_closure_phase_mask m stack box_list nl ns ta) y x = some true := by
  unfold avgAt at hz
  unfold maskAt
  cases hr : calc_closure_phase_mask m stack box_list nl ns ta with
  | error e => rw [hr] at hz; cases hz
  | ok res =>
      rw [hr] at hz
      injection hz with hzz
      have hm := calc_mask_spec m stack nl ns ta box_list
        (fun _ _ => CpxVal.mk (NpVal.val 0) (NpVal.val 0)) none res hr
      show some (res.mask y x) = some true
      rw [hm y x, hzz]
      rw [mask_pixel_amp_below m res.num_cp ns ta z hamp]

/-- C7 (witness): on the zero-phase stack the average is (1, 0), its computed
amplitude 0 is strictly below the threshold 3/10, and the pixel is
unmasked. -/
theorem c7_witness :
    avgAt (calc_closure_phase_mask mEnvA stackA [boxOne] 1 3 (3 / 10)) 0 0 =
      some (CpxVal.mk (NpVal.val 1) (NpVal.val 0)) ∧
    npLt (cAbs mEnvA (CpxVal.mk (NpVal.val 1) (NpVal.val 0))) (NpVal.val (3 / 10)) = true ∧
    maskAt (calc_closure_phase_mask mEnvA stackA [boxOne] 1 3 (3 / 10)) 0 0 = some true := by
  refine ⟨?_, ?_, ?_⟩
  · norm_num [avgAt, calc_closure_phase_mask, calc_mask_go, sum_seq_closure_phase,
      ref_phase_stack, box_sum, plus_sum, cpxAdd, cpxDivNat, npAdd, npNeg, npSub,
      npDiv, npNe0, write_box, Box.wid, Box.len, stackA, mEnvA, boxOne, List.range_succ]
  · norm_num [cAbs, mEnvA, npLt]
  · exact c7_amp_below_unmasked mEnvA stackA [boxOne] 1 3 (3 / 10) 0 0
      (CpxVal.mk (NpVal.val 1) (NpVal.val 0))
      (by norm_num [avgAt, calc_closure_phase_mask, calc_mask_go, sum_seq_closure_phase,
        ref_phase_stack, box_sum, plus_sum, cpxAdd, cpxDivNat, npAdd, npNeg, npSub,
        npDiv, npNe0, write_box, Box.wid, Box.len, stackA, mEnvA, boxOne, List.range_succ])
      (by norm_num [cAbs, mEnvA, npLt])

/-- C8 (counterexample): a pixel whose average closure phase is (-3/10, 0) has
computed amplitude exactly the threshold 3/10; its angle is pi, above the
phase threshold pi/2 (12 triplets, 3 sigma), and the pixel ends MASKED
(mask = false) — equality at the boundary is not unmasked because line 253
uses a strict less-than. -/
theorem c8_counterexample :
    avgAt (calc_closure_phase_mask mEnvC8 stackC8 [boxOne] 1 3 (3 / 10)) 0 0 =
      some (CpxVal.mk (NpVal.val (-3 / 10)) (NpVal.val 0)) ∧
    cAbs mEnvC8 (CpxVal.mk (NpVal.val (-3 / 10)) (NpVal.val 0)) = NpVal.val (3 / 10) ∧
    maskAt (calc_closure_phase_mask mEnvC8 stackC8 [boxOne] 1 3 (3 / 10)) 0 0 =
      some false := by
  refine ⟨?_, ?_, ?_⟩
  · norm_num [avgAt, calc_closure_phase_mask, calc_mask_go, sum_seq_closure_phase,
      ref_phase_stack, box_sum, plus_sum, cpxAdd, cpxDivNat, npAdd, npNeg, npSub,
      npMul, npDiv, npNe0, write_box, Box.wid, Box.len, stackC8, mEnvC8, boxOne,
      List.replicate, List.range_succ]
  · norm_num [cAbs, mEnvC8, npMul, npAdd]
  · norm_num [maskAt, avgAt, calc_closure_phase_mask, calc_mask_go,
      sum_seq_closure_phase, ref_phase_stack, box_sum, plus_sum, cpxAdd, cpxDivNat,
      npAdd, npNeg, npSub, npMul, npDiv, npNe0, npAbs, npLt, npGt, write_box,
      mask_pixel, np_abs_bool, cAbs, Box.wid, Box.len, stackC8, mEnvC8, boxOne,
      NP_PI, List.replicate, List.range_succ]
    rw [abs_of_pos (by norm_num : (0 : ℚ) < 884279719003555 / 281474976710656)]
    norm_num

/-- C8 (amended): a pixel whose average closure-phase amplitude is exactly
equal to the amplitude threshold is NOT rescued by the strict amplitude test;
its final mask is simply the negation of the phase-threshold test on its
average closure-phase angle. -/
theorem c8_amended (m : MathEnv) (stack : StackEnv) (box_list : List Box)
    (nl : Nat) (ns ta : ℚ) (y x : Nat) (z : CpxVal) (ncp : Nat)
    (hz : avgAt (calc_closure_phase_mask m stack box_list nl ns ta) y x = some z)
    (hn : ncpAt (calc_closure_phase_mask m stack box_list nl ns ta) = some ncp)
    (hamp : cAbs m z = NpVal.val ta) :
    maskAt (calc_closure_phase_mask m stack box_list nl ns ta) y x =
      some (!(npGt (npAbs (m.atan2 z.im z.re))
        (npMul (npDiv (NpVal.val NP_PI) (m.sqrt (NpVal.val (3 * ncp))))
          (NpVal.val ns)))) := by
  unfold avgAt at hz
  unfold ncpAt at hn
  unfold maskAt
  cases hr : calc_closure_phase_mask m stack box_list nl ns ta with
  | error e => rw [hr] at hz; cases hz
  | ok res =>
      rw [hr] at hz
      rw [hr] at hn
      injection hz with hzz
      injection hn with hnn
      have hm := calc_mask_spec m stack nl ns ta box_list
        (fun _ _ => CpxVal.mk (NpVal.val 0) (NpVal.val 0)) none res hr
      show some (res.mask y x) = _
      rw [hm y x, hzz, hnn]
      rw [mask_pixel_amp_eq m ncp ns ta z hamp]

/-- C8 (witness): the amended statement instantiated on the boundary pixel:
amplitude exactly 3/10, and the mask equals the negated phase test, here
false. -/
theorem c8_witness :
    cAbs mEnvC8 (CpxVal.mk (NpVal.val (-3 / 10)) (NpVal.val 0)) = NpVal.val (3 / 10) ∧
    maskAt (calc_closure_phase_mask mEnvC8 stackC8 [boxOne] 1 3 (3 / 10)) 0 0 =
      some false := by
  constructor
  · norm_num [cAbs, mEnvC8, npMul, npAdd]
  · have h := c8_amended mEnvC8 stackC8 [boxOne] 1 3 (3 / 10) 0 0
      (CpxVal.mk (NpVal.val (-3 / 10)) (NpVal.val 0)) 12
      (by norm_num [avgAt, calc_closure_phase_mask, calc_mask_go, sum_seq_closure_phase,
        ref_phase_stack, box_sum, plus_sum, cpxAdd, cpxDivNat, npAdd, npNeg, npSub,
        npMul, npDiv, npNe0, write_box, Box.wid, Box.len, stackC8, mEnvC8, boxOne,
        List.replicate, List.range_succ])
      (by norm_num [ncpAt, calc_closure_phase_mask, calc_mask_go, sum_seq_closure_phase,
        ref_phase_stack, box_sum, plus_sum, cpxAdd, cpxDivNat, npAdd, npNeg, npSub,
        npMul, npDiv, npNe0, write_box, Box.wid, Box.len, stackC8, mEnvC8, boxOne,
        List.replicate, List.range_succ])
      (by norm_num [cAbs, mEnvC8, npMul, npAdd])
    rw [h]
    norm_num [mEnvC8, npAbs, npGt, npLt, npMul, npDiv, NP_PI]
    rw [abs_of_pos (by norm_num : (0 : ℚ) < 884279719003555 / 281474976710656)]
    norm_num

/-- C4 (counterexample): with both cumulative closure phases zero at a pixel
(a 0/0 division), `estimate_ratioX` with the mask option off returns nan at
that pixel — a value outside [0,1] that the clamp does not repair. -/
theorem c4_counterexample :
    ratioAt (estimate_ratioX cenvZero [0, 1] 2 3 1 boxOne false) 0 0 = some NpVal.nan ∧
    npIn01 NpVal.nan = false := by
  constructor
  · norm_num [ratioAt, estimate_ratioX, seq2cum_closure_phase, cenvZero, boxOne,
      npDiv, npSub, npNeg, npAdd, np_clamp01, npGt, npLt, NP_PI, List.cons_ne_nil]
  · rfl

/-- C4 (amended): with the mask option off and n > 1, every ratio value
`estimate_ratioX` returns is either in [0,1] (the clamp catches every finite
or infinite raw quotient, including x/0 for x ≠ 0) or nan (when the division
is undefined, e.g. 0/0 or nan inputs). -/
theorem c4_amended (cenv : CumEnv) (tbase : List ℚ) (n nl : Nat) (wvl : ℚ)
    (box : Box) (r c : Nat) (hn : n ≠ 1) :
    ratio_ok_at (estimate_ratioX cenv tbase n nl wvl box false) r c = true := by
  by_cases h0 : cenv.numDates = 0
  · simp [estimate_ratioX, h0, ratio_ok_at, ratioAt]
  · by_cases hw : wvl = 0
    · simp [estimate_ratioX, h0, hw, ratio_ok_at, ratioAt]
    · by_cases ht : tbase = []
      · simp [estimate_ratioX, h0, hw, ht, ratio_ok_at, ratioAt]
      · simp only [estimate_ratioX, if_neg h0, if_neg hw, if_neg ht, if_neg hn,
          ratio_ok_at, ratioAt]
        exact np_clamp01_ok _

/-- C4 (witness): the amended statement instantiated at the 0/0 pixel: the
run succeeds and the returned value is in [0,1] or nan (here nan). -/
theorem c4_witness :
    (2 : Nat) ≠ 1 ∧
    ratio_ok_at (estimate_ratioX cenvZero [0, 1] 2 3 1 boxOne false) 0 0 = true :=
  ⟨by decide, c4_amended cenvZero [0, 1] 2 3 1 boxOne 0 0 (by decide)⟩

/-- C3 (amended): only the exact per-pixel inversion `estimate_bias`
validates — before its per-pixel loop — that the interferogram count equals
`int(bw*(2N-bw-1)/2)`, raising a fatal error on mismatch; the approximate
inversion `estimate_tsbias_approx` performs no such validation and can never
raise the network-mismatch error on any input. -/
theorem c3_amended :
    (∀ (m : MathEnv) (cenv : CumEnv) (benv : BiasEnv) (nl bw : Nat) (wvl : ℚ) (box : Box),
        wvl ≠ 0 → benv.date12 ≠ [] → 0 < cenv.numDates →
        (benv.A.length : Int) ≠
          Int.tdiv ((bw : Int) * (2 * ((bias_date_list benv).length : Int) - (bw : Int) - 1)) 2 →
        errOf (estimate_bias m cenv benv nl bw wvl box) = some Err.networkError) ∧
    (∀ (cenv : CumEnv) (nl bw : Nat) (tbase : List ℚ) (date_ordinal : List Int)
        (wvl : ℚ) (box : Box),
        errOf (estimate_tsbias_approx cenv nl bw tbase date_ordinal wvl box) ≠
          some Err.networkError) := by
  constructor
  · intro m cenv benv nl bw wvl box hw hd hcd hne
    have hdl := bias_date_list_ne_nil benv hd
    cases hdlc : bias_date_list benv with
    | nil => exact absurd hdlc hdl
    | cons d0 tl =>
        rw [hdlc] at hne
        simp only [estimate_bias, if_neg hw, hdlc]
        rw [if_neg (by omega : ¬cenv.numDates = 0)]
        rw [if_pos hne]
        rfl
  · intro cenv nl bw tbase date_ordinal wvl box
    simp only [estimate_tsbias_approx]
    cases h1 : except_mapM (average_connN_igrams date_ordinal)
        (List.map (fun k => k + 1) (List.range bw)) with
    | error e =>
        simp only [h1]
        have hno := except_mapM_no_network (average_connN_igrams date_ordinal)
          (fun a => avg_connN_no_network date_ordinal a)
          (List.map (fun k => k + 1) (List.range bw))
        rw [h1] at hno
        simpa [errOf] using hno
    | ok deltat =>
        simp only [h1]
        cases h2 : average_temporal_span date_ordinal bw with
        | error e =>
            simp only [h2]
            have hno := avg_span_no_network date_ordinal bw
            rw [h2] at hno
            simpa [errOf] using hno
        | ok avgtimespan =>
            simp only [h2]
            cases h3 : np_argmin (deltat.map (fun d => |d - avgtimespan|)) with
            | error e =>
                simp only [h3]
                have hno := np_argmin_no_network (deltat.map (fun d => |d - avgtimespan|))
                rw [h3] at hno
                simpa [errOf] using hno
            | ok pidx =>
                simp only [h3]
                by_cases hw : wvl = 0
                · simp [hw, errOf]
                · rw [if_neg hw]
                  cases h4 : estimate_ratioX cenv tbase (pidx + 1) nl wvl box false with
                  | error e =>
                      simp only [h4]
                      have hno := ratioX_no_network cenv tbase (pidx + 1) nl wvl box false
                      rw [h4] at hno
                      simpa [errOf] using hno
                  | ok wp =>
                      simp only [h4]
                      cases h5 : estimate_ratioX cenv tbase 2 nl wvl box false with
                      | error e =>
                          simp only [h5]
                          have hno := ratioX_no_network cenv tbase 2 nl wvl box false
                          rw [h5] at hno
                          simpa [errOf] using hno
                      | ok wm =>
                          simp only [h5]
                          simp [errOf]

/-- C3 (counterexample): `estimate_tsbias_approx` succeeds on a concrete run
(3 dates, bandwidth 1) without observing any interferogram count — it has no
access to the stack's interferogram list, so the claimed pre-inversion count
validation does not exist in the approximate variant; for this 3-date
bandwidth-1 geometry the closed form gives 2 interferograms, and the variant
behaves identically however many the stack actually holds. -/
theorem c3_counterexample :
    okBool (estimate_tsbias_approx cenvOnes 3 1 [0, 1, 2] [0, 10, 20] 1 boxOne) = true := by
  decide

/-- C3 (witness): the amended statement instantiated: a 2-date network with
five interferogram rows (one expected) makes `estimate_bias` raise the
network-mismatch error, while the approximate variant can never raise it. -/
theorem c3_witness :
    errOf (estimate_bias mEnvA cenvOnes benvC3 3 1 1 boxOne) = some Err.networkError ∧
    errOf (estimate_tsbias_approx cenvOnes 3 1 [0, 1, 2] [0, 10, 20] 1 boxOne) ≠
      some Err.networkError :=
  ⟨c3_amended.1 mEnvA cenvOnes benvC3 3 1 1 boxOne (by norm_num) (by decide) (by decide)
      (by decide),
    c3_amended.2 cenvOnes 3 1 [0, 1, 2] [0, 10, 20] 1 boxOne⟩

/-- C9: in `get_design_matrix_W`, when every incidence row is well formed but
some row's connection level exceeds the bandwidth, the run is reported to the
caller as an error (the IndexError raised by the out-of-bounds
`wratioall[conn,:,:]` lookup, after the advisory print) rather than being
silently clamped to a valid ratio lookup. -/
theorem c9_conn_over_bw_error (M : Nat) (A : List (List Int)) (bw : Nat) (box : Box)
    (tbase : List ℚ) (nl : Nat) (cenv : CumEnv)
    (hD : 0 < cenv.numDates) (hM : M = A.length)
    (hwf : A.all row_well_formed = true) (hover : A.any (row_over_bw bw) = true) :
    errOf (get_design_matrix_W M A bw box tbase nl cenv) = some Err.indexError := by
  have hwall : estimate_ratioX_all cenv bw nl box =
      Except.ok (ratio_all_fun cenv bw nl box) := by
    unfold estimate_ratioX_all
    rw [if_neg (by omega)]
  simp only [get_design_matrix_W, hwall]
  rw [gdw_go_offender (ratio_all_fun cenv bw nl box) bw box A (List.range M) ?_ ?_]
  · rfl
  · intro i hi
    rw [List.mem_range, hM] at hi
    refine ⟨A.get ⟨i, hi⟩, ?_, ?_⟩
    · exact List.get?_eq_get hi
    · rw [List.all_eq_true] at hwf
      exact hwf _ (A.get_mem i hi)
  · rw [List.any_eq_true] at hover
    obtain ⟨row, hmem, hov⟩ := hover
    obtain ⟨j, hj⟩ := List.get?_of_mem hmem
    have hjlen : j < A.length := by
      by_contra hcon
      rw [List.get?_eq_none.mpr (by omega)] at hj
      cases hj
    exact ⟨j, by rw [List.mem_range, hM]; exact hjlen, row, hj, hov⟩

/-- C9 (witness): one row of connection level 2 against bandwidth 1: the run
errors with IndexError. -/
theorem c9_witness :
    rowsC9.all row_well_formed = true ∧ rowsC9.any (row_over_bw 1) = true ∧
    errOf (get_design_matrix_W 1 rowsC9 1 boxOne [] 3 cenvOnes) = some Err.indexError :=
  ⟨by decide, by decide,
    c9_conn_over_bw_error 1 rowsC9 1 boxOne [] 3 cenvOnes (by decide) (by decide)
      (by decide) (by decide)⟩

/-- C10: slices 0 and 1 of `estimate_ratioX_all` are identically 1 (the
zero-initialised padding passes through the `1-x` transform and the clamp),
and consequently every connection-1 interferogram column of a successful
`get_design_matrix_W` run carries the per-pixel scaling factor 1. -/
theorem c10_conn1_scaling (M : Nat) (A : List (List Int)) (bw : Nat) (box : Box)
    (tbase : List ℚ) (nl : Nat) (cenv : CumEnv) (i : Nat) (row : List Int)
    (r c pix : Nat)
    (hD : 0 < cenv.numDates) (hbw : 1 ≤ bw) (hM : M = A.length)
    (hrow : A.get? i = some row) (hconn : connOf row = some 1)
    (hok : okBool (get_design_matrix_W M A bw box tbase nl cenv) = true) :
    ratioAllAt (estimate_ratioX_all cenv bw nl box) 0 r c = some (NpVal.val 1) ∧
    ratioAllAt (estimate_ratioX_all cenv bw nl box) 1 r c = some (NpVal.val 1) ∧
    WcolAt (get_design_matrix_W M A bw box tbase nl cenv) i pix = some (NpVal.val 1) := by
  have hwall : estimate_ratioX_all cenv bw nl box =
      Except.ok (ratio_all_fun cenv bw nl box) := by
    unfold estimate_ratioX_all
    rw [if_neg (by omega)]
  refine ⟨?_, ?_, ?_⟩
  · simp only [ratioAllAt, hwall]
    rw [ratio_all_fun_pad cenv bw nl box 0 r c (by omega)]
  · simp only [ratioAllAt, hwall]
    rw [ratio_all_fun_pad cenv bw nl box 1 r c (by omega)]
  · have hilen : i < A.length := by
      by_contra hcon
      rw [List.get?_eq_none.mpr (by omega)] at hrow
      cases hrow
    simp only [get_design_matrix_W, hwall] at hok ⊢
    cases hg : gdw_go (ratio_all_fun cenv bw nl box) bw box A (List.range M) with
    | error e => rw [hg] at hok; cases hok
    | ok cols =>
        obtain ⟨hlen, hspec⟩ := gdw_go_ok_spec (ratio_all_fun cenv bw nl box) bw box A
          (List.range M) cols hg
        have hidx : (List.range M)[i]? = some i := by
          rw [List.getElem?_range (by omega : i < M)]
        obtain ⟨col, hcol, hstep⟩ := hspec i i hidx
        obtain ⟨i1, i2, h1, h2, hc12⟩ := connOf_inv row 1 hconn
        have htn : ((i2 : Int) - (i1 : Int)).toNat = 1 := by omega
        have hfi : np_fancy_index (bw + 1) ((i2 : Int) - (i1 : Int)) = Except.ok 1 := by
          unfold np_fancy_index
          rw [if_pos (by omega), htn]
        have hstep2 : gdw_step (ratio_all_fun cenv bw nl box) bw box A i =
            Except.ok (fun pix2 =>
              ratio_all_fun cenv bw nl box 1 (pix2 / box.wid) (pix2 % box.wid)) := by
          unfold gdw_step
          simp only [hrow, h1, h2, hfi]
        rw [hstep2] at hstep
        injection hstep with hstepc
        simp only [WcolAt, hg, hcol, ← hstepc, Option.map_some']
        rw [ratio_all_fun_pad cenv bw nl box 1 (pix / box.wid) (pix % box.wid) (by omega)]

/-- C10 (witness): a single connection-1 row with bandwidth 1: the padding
slices are 1 and the column carries scaling factor 1. -/
theorem c10_witness :
    connOf [-1, 1] = some 1 ∧
    okBool (get_design_matrix_W 1 rowsC10 1 boxOne [] 3 cenvOnes) = true ∧
    WcolAt (get_design_matrix_W 1 rowsC10 1 boxOne [] 3 cenvOnes) 0 0 =
      some (NpVal.val 1) := by
  refine ⟨by decide, by decide, ?_⟩
  exact (c10_conn1_scaling 1 rowsC10 1 boxOne [] 3 cenvOnes 0 [-1, 1] 0 0 0
    (by decide) (by decide) (by decide) (by decide) (by decide) (by decide)).2.2
